import Mathlib

/-!
Verification of the news-aggregation pipeline in `app/scraper.py`
(repository `Scrapping`).

The pipeline is shallowly embedded: every pure computation of the source is
translated into an executable Lean definition; network I/O is modelled as a
fixed snapshot (a function from URL to the fetched outcome), so one aggregation
call is a pure function of the request parameters, the static source catalog
and the snapshot.  Python `datetime` values are modelled as natural numbers
(order-isomorphic on the reachable values, with `datetime.min` at `0`); a
calendar `date` is the datetime divided by 86400 seconds.  Python strings are
Lean `String`s, but every string operation used by the source is re-implemented
over the character list so that all definitions evaluate by `decide`/`rfl`.
-/

namespace Scrapping

instance {ε α : Type} [DecidableEq ε] [DecidableEq α] : DecidableEq (Except ε α)
  | .ok a, .ok b =>
    if h : a = b then .isTrue (by rw [h]) else .isFalse (by simp [h])
  | .ok _, .error _ => .isFalse (by simp)
  | .error _, .ok _ => .isFalse (by simp)
  | .error e, .error f =>
    if h : e = f then .isTrue (by rw [h]) else .isFalse (by simp [h])

/-! ### Python string primitives -/

/-- ASCII lower-casing of one character, as Python `str.lower` acts on the
ASCII range (the only range the scraper compares against). -/
def pyLowerChar (c : Char) : Char :=
  if 'A' ≤ c ∧ c ≤ 'Z' then Char.ofNat (c.toNat + 32) else c

/-- ASCII upper-casing of one character, as Python `str.upper` acts on ASCII. -/
def pyUpperChar (c : Char) : Char :=
  if 'a' ≤ c ∧ c ≤ 'z' then Char.ofNat (c.toNat - 32) else c

/-- Python `str.lower` (ASCII fragment). -/
def pyLower (s : String) : String := ⟨s.data.map pyLowerChar⟩

/-- Python `str.upper` (ASCII fragment). -/
def pyUpper (s : String) : String := ⟨s.data.map pyUpperChar⟩

/-- Whitespace recognised by Python `str.strip` (ASCII fragment). -/
def isPySpace (c : Char) : Bool :=
  c = ' ' ∨ c = '\t' ∨ c = '\n' ∨ c = '\r'

/-- Python `str.strip()`. -/
def pyStrip (s : String) : String :=
  ⟨((s.data.dropWhile isPySpace).reverse.dropWhile isPySpace).reverse⟩

/-- Does `l` start with `p`? -/
def listStarts : List Char → List Char → Bool
  | _, [] => true
  | [], _ :: _ => false
  | c :: cs, p :: ps => c == p && listStarts cs ps

/-- Does `l` contain `p` as a contiguous run?  (Python `p in l` on strings.) -/
def listHas (p : List Char) : List Char → Bool
  | [] => listStarts [] p
  | c :: cs => listStarts (c :: cs) p || listHas p cs

/-- Python `needle in hay` for strings. -/
def strContains (hay needle : String) : Bool := listHas needle.data hay.data

/-- Python `s.endswith(p)`. -/
def strEndsWith (s p : String) : Bool := listStarts s.data.reverse p.data.reverse

/-- Split a character list at every occurrence of the separator character. -/
def splitOnCharAux (sep : Char) : List Char → List Char → List (List Char)
  | acc, [] => [acc.reverse]
  | acc, c :: cs =>
    if c == sep then acc.reverse :: splitOnCharAux sep [] cs
    else splitOnCharAux sep (c :: acc) cs

/-- Python `s.split(sep)` for a one-character separator: `"".split` gives
`[""]`, and every occurrence of the separator produces a boundary. -/
def pySplit (s : String) (sep : Char) : List String :=
  (splitOnCharAux sep [] s.data).map fun l => ⟨l⟩

/-- First component of `s.split("-")` (always defined: Python split is
never empty). -/
def primarySubtag (s : String) : String :=
  pyLower ((pySplit s '-').headD "")

/-- Python truthiness of an optional string: `None` and `""` are falsy. -/
def pyT : Option String → Bool
  | none => false
  | some s => s ≠ ""

/-- Python `a or b` for an optional string `a` and a string default `b`. -/
def pyOrS : Option String → String → String
  | none, b => b
  | some a, b => if a = "" then b else a

/-- Python `a or b` where both sides are optional strings. -/
def pyOrO : Option String → Option String → Option String
  | none, b => b
  | some a, b => if a = "" then b else some a

/-! ### `normalize_text` (`app/scraper.py:150`)

The source folds a string with `unicodedata.normalize("NFKD", text)`, drops
the non-ASCII code points, and lower-cases the result.  The fold is modelled
character by character: ASCII characters are kept (lower-cased), Latin-1
accented letters decompose to their ASCII base letter, and any other
character has no ASCII part in its decomposition and is dropped. -/

/-- One character of `normalize_text`: NFKD decomposition, ASCII filtering and
lower-casing, for ASCII and the Latin accented letters the feeds use. -/
def foldChar (c : Char) : List Char :=
  if c.toNat < 128 then [pyLowerChar c]
  else if c = 'á' ∨ c = 'à' ∨ c = 'â' ∨ c = 'ä' ∨ c = 'ã' ∨ c = 'å'
        ∨ c = 'Á' ∨ c = 'À' ∨ c = 'Â' ∨ c = 'Ä' ∨ c = 'Ã' ∨ c = 'Å' then ['a']
  else if c = 'é' ∨ c = 'è' ∨ c = 'ê' ∨ c = 'ë'
        ∨ c = 'É' ∨ c = 'È' ∨ c = 'Ê' ∨ c = 'Ë' then ['e']
  else if c = 'í' ∨ c = 'ì' ∨ c = 'î' ∨ c = 'ï'
        ∨ c = 'Í' ∨ c = 'Ì' ∨ c = 'Î' ∨ c = 'Ï' then ['i']
  else if c = 'ó' ∨ c = 'ò' ∨ c = 'ô' ∨ c = 'ö' ∨ c = 'õ'
        ∨ c = 'Ó' ∨ c = 'Ò' ∨ c = 'Ô' ∨ c = 'Ö' ∨ c = 'Õ' then ['o']
  else if c = 'ú' ∨ c = 'ù' ∨ c = 'û' ∨ c = 'ü'
        ∨ c = 'Ú' ∨ c = 'Ù' ∨ c = 'Û' ∨ c = 'Ü' then ['u']
  else if c = 'ñ' ∨ c = 'Ñ' then ['n']
  else if c = 'ç' ∨ c = 'Ç' then ['c']
  else if c = 'ý' ∨ c = 'ÿ' ∨ c = 'Ý' then ['y']
  else []

/-- `normalize_text` (`app/scraper.py:150`): accent folding to ASCII plus
lower-casing. -/
def normalize_text (s : String) : String := ⟨(s.data.map foldChar).flatten⟩

/-! ### Country and period resolution (`app/scraper.py:19-84`) -/

/-- Validation failures `fetch_news` can raise (Python `ValueError`s,
distinguished here by their message). -/
inductive FetchError where
  /-- "Unsupported country '...'"  (`app/scraper.py:62`). -/
  | unsupportedCountry (country : String)
  /-- "No sources configured for country ..." (`app/scraper.py:220`). -/
  | noSources (country : String)
  /-- "Period must be one of: day, week, month, year" (`app/scraper.py:84`). -/
  | invalidPeriod
deriving DecidableEq, Repr

/-- `COUNTRY_ALIASES` (`app/scraper.py:19`). -/
def COUNTRY_ALIASES : List (String × String) :=
  [("es", "es-ES"), ("es-es", "es-ES"), ("es-esp", "es-ES"), ("spain", "es-ES"),
   ("ar", "es-AR"), ("arg", "es-AR"), ("argentina", "es-AR"), ("es-ar", "es-AR"),
   ("co", "es-CO"), ("col", "es-CO"), ("colombia", "es-CO"), ("es-co", "es-CO"),
   ("mx", "es-MX"), ("mex", "es-MX"), ("mexico", "es-MX"), ("es-mx", "es-MX"),
   ("pe", "es-PE"), ("peru", "es-PE"), ("es-pe", "es-PE"),
   ("cl", "es-CL"), ("chile", "es-CL"), ("es-cl", "es-CL"),
   ("ec", "es-EC"), ("ecuador", "es-EC"), ("es-ec", "es-EC"),
   ("ve", "es-VE"), ("venezuela", "es-VE"), ("es-ve", "es-VE"),
   ("us", "en-US"), ("usa", "en-US"), ("eeuu", "en-US"),
   ("en-us", "en-US"), ("us-en", "en-US")]

/-- Modelled from the spec: `SUPPORTED_COUNTRIES` is defined in
`app/sources.py`, which is not among the provided sources.  The spec calls it
the "fixed set of supported canonical country codes" that alias resolution
maps into, so it is taken to be exactly the set of canonical codes appearing
as values of `COUNTRY_ALIASES`. -/
def SUPPORTED_COUNTRIES : List String :=
  ["es-ES", "es-AR", "es-CO", "es-MX", "es-PE", "es-CL", "es-EC", "es-VE", "en-US"]

/-- `normalize_country` (`app/scraper.py:56`). -/
def normalize_country (country : String) : Except FetchError String :=
  let key := pyLower (pyStrip country)
  match COUNTRY_ALIASES.lookup key with
  | some v => .ok v
  | none =>
    if country ∈ SUPPORTED_COUNTRIES then .ok country
    else .error (.unsupportedCountry country)

/-- A calendar date (`datetime.date`), as a day count. -/
abbrev PyDate := Nat

/-- A `datetime`, as a second count from `datetime.min` (order-isomorphic on
the values the pipeline can construct). -/
abbrev PyDateTime := Nat

/-- Python `dt.date()`: the calendar date of a datetime. -/
def dateOf (t : PyDateTime) : PyDate := t / 86400

/-- `date_range_from_period` (`app/scraper.py:71`); `today` is the value of
`datetime.utcnow().date()` at call time. -/
def date_range_from_period (today : PyDate) :
    Option String → Except FetchError (Option PyDate × Option PyDate)
  | none => .ok (none, none)
  | some p =>
    if p = "" then .ok (none, none)
    else
      let pl := pyLower p
      if pl = "day" then .ok (some (today - 1), some today)
      else if pl = "week" then .ok (some (today - 7), some today)
      else if pl = "month" then .ok (some (today - 30), some today)
      else if pl = "year" then .ok (some (today - 365), some today)
      else .error .invalidPeriod

/-! ### Data model (`app/schemas.py`, `app/sources.py`) -/

/-- `NewsSource` (external catalog record; `app/sources.py`, referenced by the
spec as external data). -/
structure NewsSource where
  id : String
  name : String
  country : String
  language : String
  feeds : List String
  homepage : String
deriving DecidableEq, Repr

instance : Inhabited NewsSource :=
  ⟨{ id := "", name := "", country := "", language := "", feeds := [], homepage := "" }⟩

/-- `NewsItem` (`app/schemas.py:9`).  The scraper only ever constructs items
whose `source`, `country` and `language` are strings, so the pydantic
`Optional` tags are modelled as plain strings. -/
structure NewsItem where
  title : String
  image_path : Option String
  source : String
  link : String
  date : Option PyDateTime
  country : String
  language : String
deriving DecidableEq, Repr

/-- One element of a feed entry's `media_content` / `media_thumbnail` list. -/
structure MediaRef where
  url : Option String := none
deriving DecidableEq, Repr

/-- One element of a feed entry's `enclosures` list.  `mimeType` models the
dictionary key `"type"` (a Lean keyword). -/
structure Enclosure where
  href : Option String := none
  url : Option String := none
  mimeType : Option String := none
deriving DecidableEq, Repr

/-- One element of a feed entry's `content` list. -/
structure ContentBlock where
  value : Option String := none
deriving DecidableEq, Repr

/-- A raw feedparser entry, restricted to the keys the scraper reads.  The
`_alt` lists model the alternate dictionary keys `"media:content"` /
`"media:thumbnail"` that the source consults when the primary key is falsy.
`published_at` holds the result of `parse_entry_date` (`app/scraper.py:87`),
whose structured/free-text date parsing is performed by the external
`feedparser`/`dateutil` libraries and is abstracted into the snapshot. -/
structure RawEntry where
  title : Option String := none
  link : Option String := none
  summary : Option String := none
  description : Option String := none
  published_at : Option PyDateTime := none
  media_content : List MediaRef := []
  media_content_alt : List MediaRef := []
  media_thumbnail : List MediaRef := []
  media_thumbnail_alt : List MediaRef := []
  enclosures : List Enclosure := []
  content : List ContentBlock := []
  source_title : Option String := none
deriving DecidableEq, Repr

/-! ### `parse_entry_image` (`app/scraper.py:100`) -/

/-- The quote characters of the character class in the `src=` regex
`src=["\\']([^"\\']+)` of `app/scraper.py:131`: double quote, single quote
and backslash. -/
def classChar (c : Char) : Bool :=
  c = '"' ∨ c = Char.ofNat 39 ∨ c = Char.ofNat 92

/-- `re.search(r'src=["\\'']([^"\\'']+)', val)`: scan left to right for
`src=` followed by one quote-class character, then capture the maximal
non-empty run of characters outside the class. -/
def imgSrcSearch : List Char → Option String
  | [] => none
  | c :: rest =>
    match c, rest with
    | 's', 'r' :: 'c' :: '=' :: q :: rest2 =>
      if classChar q then
        let cap := rest2.takeWhile fun ch => ¬ classChar ch
        if cap.isEmpty then imgSrcSearch rest else some ⟨cap⟩
      else imgSrcSearch rest
    | _, _ => imgSrcSearch rest

/-- Python `a or b` on lists (an empty list is falsy). -/
def pyOrL {α : Type} (a b : List α) : List α := if a.isEmpty then b else a

/-- The media stage of `parse_entry_image`: only the FIRST element of the
list is consulted, and a missing or empty `url` falls through. -/
def imageFromMedia : List MediaRef → Option String
  | [] => none
  | m :: _ =>
    match m.url with
    | some u => if u = "" then none else some u
    | none => none

/-- Is this lower-cased MIME string accepted by `app/scraper.py:123`?  The
source tests the MIME string only: `"image" in mime` or `mime` ends with
`jpg`/`jpeg`/`png`/`webp`. -/
def imageMime (mime : String) : Bool :=
  strContains mime "image" || strEndsWith mime "jpg" || strEndsWith mime "jpeg"
    || strEndsWith mime "png" || strEndsWith mime "webp"

/-- The enclosure stage of `parse_entry_image`: first enclosure with a truthy
URL (`href` falling back to `url`) whose MIME type passes `imageMime`. -/
def imageFromEnclosures (encs : List Enclosure) : Option String :=
  encs.findSome? fun enc =>
    let url := pyOrS enc.href (pyOrS enc.url "")
    if url = "" then none
    else
      let mime := pyLower (pyOrS enc.mimeType "")
      if imageMime mime then some url else none

/-- The inline-HTML stage of `parse_entry_image`: first content block whose
value contains both `img` and `src=` and whose `src=` regex search succeeds. -/
def imageFromContent (blocks : List ContentBlock) : Option String :=
  blocks.findSome? fun c =>
    let val := pyOrS c.value ""
    if strContains val "img" && strContains val "src=" then imgSrcSearch val.data
    else none

/-- `parse_entry_image` (`app/scraper.py:100`): media:content, then
media:thumbnail, then enclosures, then inline HTML content. -/
def parse_entry_image (entry : RawEntry) : Option String :=
  match imageFromMedia (pyOrL entry.media_content entry.media_content_alt) with
  | some u => some u
  | none =>
    match imageFromMedia (pyOrL entry.media_thumbnail entry.media_thumbnail_alt) with
    | some u => some u
    | none =>
      match imageFromEnclosures entry.enclosures with
      | some u => some u
      | none => imageFromContent entry.content

/-! ### `fetch_feed` (`app/scraper.py:160`) -/

/-- The per-entry body of the loop in `fetch_feed` (`app/scraper.py:176-202`):
drop the entry when its link is falsy, build the searchable text and apply the
keyword substring test when a truthy keyword was supplied, and construct the
`NewsItem`.  Returns `none` when the entry is skipped. -/
def normalize_entry (source : NewsSource) (keyword_lower : Option String)
    (entry : RawEntry) : Option NewsItem :=
  let summary := pyOrS entry.summary (pyOrS entry.description "")
  let link := pyOrS entry.link ""
  if link = "" then none
  else
    let source_title := pyOrS entry.source_title source.name
    let keep :=
      match keyword_lower with
      | none => true
      | some kw =>
        if kw = "" then true
        else
          strContains
            (normalize_text ((entry.title.getD "") ++ " " ++ summary ++ " " ++ source_title)) kw
    if keep then
      some { title := pyOrS entry.title "(sin título)"
             link := link
             image_path := parse_entry_image entry
             date := entry.published_at
             source := source_title
             country := source.country
             language := source.language }
    else none

/-- `fetch_feed` (`app/scraper.py:160`) under a fixed snapshot
`feedSnap : URL → Except exc entries`: an HTTP/parse failure (`.error`)
yields no items plus one warning string; success yields the normalized
surviving entries and no warning. -/
def fetch_feed (feedSnap : String → Except String (List RawEntry))
    (source : NewsSource) (feed_url : String) (keyword_lower : Option String) :
    List NewsItem × Option String :=
  match feedSnap feed_url with
  | .error exc =>
    ([], some (source.name ++ " feed failed (" ++ feed_url ++ "): " ++ exc))
  | .ok entries => (entries.filterMap (normalize_entry source keyword_lower), none)

/-! ### `google_news_feed` (`app/scraper.py:305`) -/

/-- Modelled `urllib.parse.quote_plus`: spaces become `+`; percent escaping of
other reserved characters is not modelled (the resulting URL is only a lookup
key into the snapshot and a diagnostic string). -/
def quote_plus (s : String) : String :=
  ⟨s.data.map fun c => if c = ' ' then '+' else c⟩

/-- `google_news_feed` (`app/scraper.py:305`). -/
def google_news_feed (keyword : String) (country language : Option String) : String :=
  let lang := primarySubtag (pyOrS language "es")
  let gl :=
    match country with
    | some c => if c = "" then "US" else pyUpper ((pySplit c '-').getLastD "")
    | none => "US"
  let ceid := gl ++ ":" ++ lang
  let q := quote_plus keyword
  "https://news.google.com/rss/search?q=" ++ q ++ "&hl=" ++ lang ++ "&gl=" ++ gl
    ++ "&ceid=" ++ ceid

/-! ### Manual HTML sources (`app/manual_sources.py`, `app/scraper.py:385`) -/

/-- `MANUAL_SOURCES` (`app/manual_sources.py:5`). -/
def MANUAL_SOURCES : List (String × List String) :=
  [("es-ES",
    ["https://eurydice.eacea.ec.europa.eu/es/eurypedia/spain/educacion-superior",
     "https://www.unesco.org/es/higher-education",
     "https://administracion.gob.es/pag_Home/Tu-espacio-europeo/derechos-obligaciones/ciudadanos/educacion/sistema-educativo/superior.html",
     "https://www.aecid.es/educacion-superior",
     "https://www.educacionfpydeportes.gob.es/mc/redie-eurydice/sistemas-educativos/educacion-superior.html",
     "https://www.losandes.com.ar/sociedad/repensar-la-universidad-los-desafios-que-hoy-redefinen-la-educacion-superior-n5970958",
     "https://www.uned.es/universidad/inicio/en/",
     "https://www.mondragon.edu/",
     "https://web.ub.edu/es/inicio",
     "https://www.urjc.es/",
     "https://intef.es/",
     "https://www.unia.es/",
     "https://www.ufv.es/",
     "https://www.ubu.es/inicio",
     "https://www.um.es/",
     "https://ice.ua.es/es/instituto-de-ciencias-de-la-educacion.html",
     "https://educacionprivada.org/",
     "https://www.espaciosdeeducacionsuperior.es/24/11/2025/revision-ultimos-informes-internacionales-universidad-en-linea/",
     "http://www.unizar.es/",
     "https://www.uma.es/",
     "https://www.ciencia.gob.es/en/",
     "https://www.crue.org/",
     "https://www.us.es/"])]

/-- `manual_sources_for_country` (`app/manual_sources.py:35`). -/
def manual_sources_for_country (country : String) : List String :=
  (MANUAL_SOURCES.lookup country).getD []

/-- The values `extract_title`, `extract_description` and `extract_og_image`
(`app/scraper.py:423,430,137`) produce from one fetched manual HTML page.
These three helpers are single regex searches over the page body; the snapshot
records their results directly. -/
structure ManualPage where
  title : Option String := none
  description : Option String := none
  ogImage : Option String := none
deriving DecidableEq, Repr

/-- Python `url.split("/")[2]` — the host part; `none` models the
`IndexError` raised when the URL has fewer than three `/`-separated parts. -/
def hostOf (url : String) : Option String := (pySplit url '/').get? 2

/-- `fetch_manual_sources` (`app/scraper.py:385`) under a fixed snapshot:
pages are fetched sequentially; a fetch failure appends one warning; a fetched
page is keyword-matched on title+description and becomes a pseudo-item with no
timestamp, empty country and the language the caller passed. -/
def fetch_manual_sources (manualSnap : String → Except String ManualPage)
    (keyword_lower : String) (urls : List String) (language : String) :
    List NewsItem × List String :=
  match urls with
  | [] => ([], [])
  | url :: rest =>
    let restPair := fetch_manual_sources manualSnap keyword_lower rest language
    match manualSnap url with
    | .error exc =>
      (restPair.1, ("Manual source failed (" ++ url ++ "): " ++ exc) :: restPair.2)
    | .ok pg =>
      let title := pyOrS pg.title url
      let desc := pyOrS pg.description ""
      let searchable := normalize_text (title ++ " " ++ desc)
      if ¬ strContains searchable keyword_lower then restPair
      else
        let image :=
          match pg.ogImage with
          | some img => if strContains img "googleusercontent.com" then none else some img
          | none => none
        match hostOf url with
        | none =>
          (restPair.1,
           ("Manual source failed (" ++ url ++ "): list index out of range") ::
             restPair.2)
        | some host =>
          ({ title := title, image_path := image, source := host, link := url,
             date := none, country := "", language := language } :: restPair.1,
           restPair.2)

/-! ### Image backfill (`app/scraper.py:318-382`) -/

/-- What `extract_og_image` and the meta-refresh regex (`app/scraper.py:359`)
produce from one fetched HTML page; the two single-regex scans over the body
are recorded in the snapshot. -/
structure PageDoc where
  ogImage : Option String := none
  metaRefreshUrl : Option String := none
deriving DecidableEq, Repr

/-- The proxy-domain discard applied twice in `fetch_og_image`
(`app/scraper.py:355,371`): `if image and "googleusercontent.com" in image:
image = None`. -/
def discard_proxy (image : Option String) : Option String :=
  match image with
  | some img =>
    if img ≠ "" ∧ strContains img "googleusercontent.com" then none else image
  | none => none

/-- The redirect resolution step of `fetch_og_image` (`app/scraper.py:334-345`):
a Google News link is resolved with one GET (`resolve`, `none` meaning that
GET raised and the original link is kept). -/
def og_target_url (resolve : String → Option String) (link : String) : String :=
  if strContains link "news.google.com" then (resolve link).getD link else link

/-- The image the body of `fetch_og_image` settles on after a successful page
fetch (`app/scraper.py:354-377`): the page's Open-Graph image after the proxy
discard; if that is falsy and the page has a meta-refresh redirect, one
further fetch and scan (its own failures keeping the falsy direct value). -/
def og_candidate (pageSnap : String → Option PageDoc) (pg : PageDoc) : Option String :=
  let image1 := discard_proxy pg.ogImage
  if pyT image1 then image1
  else
    match pg.metaRefreshUrl with
    | none => image1
    | some rurl =>
      match pageSnap rurl with
      | none => image1
      | some pg2 => discard_proxy pg2.ogImage

/-- `fetch_og_image` (`app/scraper.py:331`) under a fixed snapshot.
`resolve url` models the redirect-resolving GET used for Google News links;
`pageSnap url` models GETting a page (`none` = any exception or non-2xx
status).  Every failure leaves the item unchanged — with its image absent,
since the caller cleared it. -/
def fetch_og_image (resolve : String → Option String)
    (pageSnap : String → Option PageDoc) (item : NewsItem) : NewsItem :=
  match pageSnap (og_target_url resolve item.link) with
  | none => item
  | some pg =>
    let image := og_candidate pageSnap pg
    if pyT image then { item with image_path := image } else item

/-- The skip test of `backfill_images` (`app/scraper.py:322`): an item is NOT
a backfill candidate when its image is truthy and not from the proxy domain. -/
def backfill_skip (item : NewsItem) : Bool :=
  pyT item.image_path ∧ ¬ strContains (item.image_path.getD "") "googleusercontent.com"

/-- `backfill_images` (`app/scraper.py:318`) under a fixed snapshot: every
candidate's image is cleared, then `fetch_og_image` runs per candidate. -/
def backfill_images (resolve : String → Option String)
    (pageSnap : String → Option PageDoc) (items : List NewsItem) : List NewsItem :=
  items.map fun item =>
    if backfill_skip item then item
    else fetch_og_image resolve pageSnap { item with image_path := none }

/-! ### `fetch_news` (`app/scraper.py:206`) -/

/-- A fixed snapshot of every outbound fetch an aggregation call could make:
feed URL → parsed entries or failure text, manual page URL → extracted page
or failure text, plus the two backfill fetch kinds. -/
structure Snapshot where
  feed : String → Except String (List RawEntry)
  manual : String → Except String ManualPage
  resolve : String → Option String
  page : String → Option PageDoc

/-- The static source catalog (`app/sources.py`), an external read-only
configuration input of the core per the spec. -/
structure Config where
  sources_for_country : String → List NewsSource
  active_sources : List NewsSource

/-- `normalize_language` (`app/scraper.py:65`). -/
def normalize_language (lang : Option String) (country_sources : List NewsSource) : String :=
  if pyT lang then primarySubtag (lang.getD "")
  else (country_sources.headD default).language

/-- Country validation step of `fetch_news` (`app/scraper.py:216`): a falsy
country is accepted and resolves to nothing. -/
def resolve_country (country : Option String) : Except FetchError (Option String) :=
  match country with
  | none => .ok none
  | some c => if c = "" then .ok none else (normalize_country c).map some

/-- Source selection step of `fetch_news` (`app/scraper.py:217-222`). -/
def select_sources (cfg : Config) : Option String → Except FetchError (List NewsSource)
  | some c =>
    let ss := cfg.sources_for_country c
    if ss.isEmpty then .error (.noSources c) else .ok ss
  | none => .ok cfg.active_sources

/-- Effective-language derivation of `fetch_news` (`app/scraper.py:224-229`). -/
def effective_language (language normalized_country : Option String)
    (sources : List NewsSource) : Option String :=
  if pyT language then some (primarySubtag (language.getD ""))
  else if pyT normalized_country then some (normalize_language none sources)
  else none

/-- The validated request context: everything `fetch_news` derives before any
fetching happens. -/
structure Ctx where
  normalized_country : Option String
  sources : List NewsSource
  lang : Option String
  effective_from : Option PyDate
  effective_to : Option PyDate
deriving DecidableEq, Repr

/-- The validation prefix of `fetch_news` (`app/scraper.py:216-236`): country
resolution, source selection, language derivation and the effective date
range (explicit bounds falling back per component to the period range). -/
def request_ctx (cfg : Config) (today : PyDate)
    (country language period : Option String)
    (date_from date_to : Option PyDate) : Except FetchError Ctx := do
  let nc ← resolve_country country
  let sources ← select_sources cfg nc
  let lang := effective_language language nc sources
  let (period_from, period_to) ← date_range_from_period today period
  .ok { normalized_country := nc, sources := sources, lang := lang,
        effective_from := date_from <|> period_from,
        effective_to := date_to <|> period_to }

/-- The synthesized Google News fallback source (`app/scraper.py:246-253`). -/
def g_source (keyword : String) (normalized_country language lang : Option String) :
    NewsSource :=
  { id := "google-news"
    name := "Google News"
    country := pyOrS normalized_country "all"
    language := pyOrS lang (if pyT language then primarySubtag (language.getD "") else "es")
    feeds := [google_news_feed keyword normalized_country (pyOrO language lang)]
    homepage := "https://news.google.com" }

/-- The fan-out of `fetch_feed` calls (`app/scraper.py:239-256`), in task
order: every feed of every selected source with the folded keyword, then the
fallback feed with no keyword filter. -/
def feed_results (feedSnap : String → Except String (List RawEntry))
    (sources : List NewsSource) (gs : NewsSource) (keyword_lower : String) :
    List (List NewsItem × Option String) :=
  (sources.flatMap fun s => s.feeds.map fun u => fetch_feed feedSnap s u (some keyword_lower))
    ++ [fetch_feed feedSnap gs (gs.feeds.headD "") none]

/-- The manual URL list the request will fetch (`app/scraper.py:259`). -/
def manual_urls_of (ctx : Ctx) : List String :=
  if pyT ctx.normalized_country then
    manual_sources_for_country (ctx.normalized_country.getD "")
  else []

/-- The merge step of `fetch_news` (`app/scraper.py:258-269`): manual items
and warnings come first, then the fan-out results in task order. -/
def gathered (snap : Snapshot) (keyword : String) (language : Option String)
    (ctx : Ctx) : List NewsItem × List String :=
  let keyword_lower := normalize_text keyword
  let gs := g_source keyword ctx.normalized_country language ctx.lang
  let results := feed_results snap.feed ctx.sources gs keyword_lower
  let manual_urls := manual_urls_of ctx
  let mm :=
    if manual_urls.isEmpty then ([], [])
    else fetch_manual_sources snap.manual keyword_lower manual_urls (pyOrS ctx.lang "")
  (mm.1 ++ (results.map Prod.fst).flatten, mm.2 ++ results.filterMap Prod.snd)

/-- The `continue` test `effective_from and item_date < effective_from`
(`app/scraper.py:279`). -/
def below_lower_bound (effective_from : Option PyDate) (item_date : PyDate) : Bool :=
  match effective_from with
  | some f => item_date < f
  | none => false

/-- The `continue` test `effective_to and item_date > effective_to`
(`app/scraper.py:281`). -/
def above_upper_bound (effective_to : Option PyDate) (item_date : PyDate) : Bool :=
  match effective_to with
  | some t => t < item_date
  | none => false

/-- The filter step of `fetch_news` (`app/scraper.py:271-283`): language
filter when a truthy language is set, then the date filter when any effective
bound is present (undated items dropped, both bounds inclusive). -/
def keep_item (lang : Option String) (effective_from effective_to : Option PyDate)
    (item : NewsItem) : Bool :=
  if pyT lang ∧ item.language ≠ lang.getD "" then false
  else if effective_from.isSome ∨ effective_to.isSome then
    match item.date with
    | none => false
    | some d =>
      !below_lower_bound effective_from (dateOf d)
        && !above_upper_bound effective_to (dateOf d)
  else true

/-- The deduplication loop of `fetch_news` (`app/scraper.py:285-292`), with
the `seen` set of already-kept links made explicit. -/
def dedup_by_link (seen : List String) : List NewsItem → List NewsItem
  | [] => []
  | x :: xs =>
    if x.link ∈ seen then dedup_by_link seen xs
    else x :: dedup_by_link (x.link :: seen) xs

/-- The sort key `x.date or datetime.min` of `app/scraper.py:294`.  A missing
date and the minimal datetime share the key `0`. -/
def sortKey (x : NewsItem) : PyDateTime := x.date.getD 0

/-- `a` may precede `b` in the descending sort: `a`'s key is ≥ `b`'s. -/
def byDateDesc (a b : NewsItem) : Prop := sortKey b ≤ sortKey a

instance : DecidableRel byDateDesc := fun a b => Nat.decLe (sortKey b) (sortKey a)

instance : IsTotal NewsItem byDateDesc := ⟨fun a b => Nat.le_total (sortKey b) (sortKey a)⟩

instance : IsTrans NewsItem byDateDesc := ⟨fun _ _ _ h h2 => Nat.le_trans h2 h⟩

/-- `unique_items.sort(key=lambda x: x.date or datetime.min, reverse=True)`
(`app/scraper.py:294`).  Python's sort is stable and stable sorts of a total
preorder agree extensionally, so the stable `List.insertionSort` models it. -/
def sort_by_date_desc (l : List NewsItem) : List NewsItem :=
  List.insertionSort byDateDesc l

/-- The merged item list after filtering (`app/scraper.py:271-283`). -/
def full_filtered (snap : Snapshot) (keyword : String) (language : Option String)
    (ctx : Ctx) : List NewsItem :=
  (gathered snap keyword language ctx).1.filter
    (keep_item ctx.lang ctx.effective_from ctx.effective_to)

/-- The full filtered, deduplicated, sorted item list of one aggregation call
(`app/scraper.py:285-294`) — the set `total` counts and pagination slices. -/
def full_sorted (snap : Snapshot) (keyword : String) (language : Option String)
    (ctx : Ctx) : List NewsItem :=
  sort_by_date_desc (dedup_by_link [] (full_filtered snap keyword language ctx))

/-- The `queried_feed_urls` diagnostic list (`app/scraper.py:244,255,264`). -/
def queried_feed_urls (keyword : String) (language : Option String) (ctx : Ctx) :
    List String :=
  let gs := g_source keyword ctx.normalized_country language ctx.lang
  let feed_urls1 :=
    (ctx.sources.flatMap fun s => s.feeds.map fun u => s.id ++ ": " ++ u)
      ++ [gs.id ++ ": " ++ gs.feeds.headD ""]
  let manual_urls := manual_urls_of ctx
  feed_urls1 ++ (if manual_urls.isEmpty then [] else manual_urls.map fun u => "manual: " ++ u)

/-- The tuple `fetch_news` returns (`app/scraper.py:302`). -/
structure FetchResult where
  items : List NewsItem
  warnings : List String
  total : Nat
  resolved_country : String
  feed_urls : List String
deriving DecidableEq, Repr

/-- The post-validation body of `fetch_news` (`app/scraper.py:238-302`):
fan out, merge, filter, deduplicate, sort, paginate, backfill the page's
images, and append the truncation notice (its text models
"Results truncated from {total} to page slice") when the filtered set extends
beyond the page end. -/
def assemble (snap : Snapshot) (keyword : String) (language : Option String)
    (page page_size : Nat) (ctx : Ctx) : FetchResult :=
  let u := full_sorted snap keyword language ctx
  let total := u.length
  let start := (page - 1) * page_size
  let stop := start + page_size
  let page_items := (u.drop start).take page_size
  let warnings0 := (gathered snap keyword language ctx).2
  let warnings :=
    if stop < total then warnings0 ++ ["Results truncated to page slice"]
    else warnings0
  { items := backfill_images snap.resolve snap.page page_items
    warnings := warnings
    total := total
    resolved_country := pyOrS ctx.normalized_country "all"
    feed_urls := queried_feed_urls keyword language ctx }

/-- `fetch_news` (`app/scraper.py:206`) under a fixed snapshot: the
validation prefix, then the aggregation body. -/
def fetch_news (cfg : Config) (snap : Snapshot) (today : PyDate)
    (keyword : String) (country language period : Option String)
    (date_from date_to : Option PyDate) (page page_size : Nat) :
    Except FetchError FetchResult :=
  (request_ctx cfg today country language period date_from date_to).map
    (assemble snap keyword language page page_size)

/-! ### Derived observation functions used by the theorems -/

/-- What the body of `fetch_og_image` finds for a given link: the image it
would store, or `none` when any step fails or only a proxy/falsy image is
found. -/
def og_image_found (resolve : String → Option String)
    (pageSnap : String → Option PageDoc) (link : String) : Option String :=
  match pageSnap (og_target_url resolve link) with
  | none => none
  | some pg =>
    let image := og_candidate pageSnap pg
    if pyT image then image else none

/-- The per-item step of `backfill_images`. -/
def backfill_one (resolve : String → Option String)
    (pageSnap : String → Option PageDoc) (item : NewsItem) : NewsItem :=
  if backfill_skip item then item
  else fetch_og_image resolve pageSnap { item with image_path := none }

/-- Does the spec property "no undated item ever appears before a dated
item" hold of a result list? -/
def no_undated_before_dated : List NewsItem → Bool
  | [] => true
  | a :: l =>
    (if a.date = none then l.all fun b => b.date = none else true)
      && no_undated_before_dated l

/-- Does the spec property "manual pseudo-items appear after every dated
item" fail here: is there a dated item after a pseudo-shaped (undated,
country-less) item? -/
def dated_after_pseudo : List NewsItem → Bool
  | [] => false
  | a :: l =>
    (a.date = none && a.country = "" && l.any fun b => b.date.isSome)
      || dated_after_pseudo l

instance : Inhabited NewsItem :=
  ⟨{ title := "", image_path := none, source := "", link := "", date := none,
     country := "", language := "" }⟩

instance : Inhabited Ctx :=
  ⟨{ normalized_country := none, sources := [], lang := none,
     effective_from := none, effective_to := none }⟩

instance : Inhabited FetchResult :=
  ⟨{ items := [], warnings := [], total := 0, resolved_country := "", feed_urls := [] }⟩

/-! ### Concrete fixtures used by witnesses and counterexamples -/

/-- A registered Argentine source with one feed. -/
def srcAR : NewsSource :=
  { id := "s1", name := "S1", country := "es-AR", language := "es",
    feeds := ["f1"], homepage := "h" }

/-- A catalog knowing one country (`es-AR`). -/
def cfgAR : Config :=
  { sources_for_country := fun c => if c = "es-AR" then [srcAR] else []
    active_sources := [] }

/-- A catalog with one source for every supported country. -/
def cfgAll : Config :=
  { sources_for_country := fun c =>
      [{ id := "s-" ++ c, name := "S " ++ c, country := c, language := "es",
         feeds := ["f-" ++ c], homepage := "h" }]
    active_sources := [] }

/-- An entry with no date. -/
def entryA : RawEntry := { title := some "x a", link := some "A" }

/-- An entry dated exactly at the minimal timestamp (`datetime.min`), e.g.
a feed publishing `0001-01-01T00:00:00`. -/
def entryB : RawEntry := { title := some "x b", link := some "B", published_at := some 0 }

/-- An entry dated two days (in seconds) after the epoch of the model. -/
def entryC : RawEntry :=
  { title := some "x c", link := some "C", published_at := some (86400 * 2) }

/-- A snapshot where feed `f1` serves `entryA`/`entryB` and everything else
fails. -/
def snapC2 : Snapshot :=
  { feed := fun u => if u = "f1" then .ok [entryA, entryB] else .error "boom"
    manual := fun _ => .error "boom"
    resolve := fun _ => none
    page := fun _ => none }

/-- A snapshot where feed `f1` serves `entryC`/`entryB`/`entryA` and
everything else fails. -/
def snapC1 : Snapshot :=
  { feed := fun u => if u = "f1" then .ok [entryC, entryB, entryA, entryC] else .error "boom"
    manual := fun _ => .error "boom"
    resolve := fun _ => none
    page := fun _ => none }

/-- The context the `es-AR` fixture request resolves to. -/
def ctxAR : Ctx :=
  (request_ctx cfgAR 1000 (some "ar") none none none none).toOption.getD default

/-- An empty catalog: no registered sources at all. -/
def cfgEmpty : Config :=
  { sources_for_country := fun _ => [], active_sources := [] }

/-- An entry (served by the fallback feed) whose text has nothing to do with
the keyword `zzz`. -/
def entryG : RawEntry := { title := some "hello", link := some "L" }

/-- A snapshot where only the synthesized Google News fallback feed for the
keyword `zzz` (no country, no language) answers, serving `entryG`. -/
def snapG : Snapshot :=
  { feed := fun u =>
      if u = "https://news.google.com/rss/search?q=zzz&hl=es&gl=US&ceid=US:es" then
        .ok [entryG]
      else .error "boom"
    manual := fun _ => .error "boom"
    resolve := fun _ => none
    page := fun _ => none }

/-- An entry with an accented title, for the keyword-folding example. -/
def entryEdu : RawEntry := { title := some "Educación Superior", link := some "E" }

/-- Does a string end in one of the image extensions `jpg`/`jpeg`/`png`/
`webp`?  This is the spec claim's reading of "URL extension indicates an
image"; the source never applies it to the URL. -/
def extIndicatesImage (s : String) : Bool :=
  strEndsWith s "jpg" || strEndsWith s "jpeg" || strEndsWith s "png"
    || strEndsWith s "webp"

/-- An enclosure whose URL has an image extension but whose MIME type is not
image-like. -/
def encPdf : Enclosure := { href := some "http://x/pic.jpg", mimeType := some "application/pdf" }

/-- Another enclosure with the same MIME type and a non-image URL. -/
def encPdf2 : Enclosure := { url := some "http://y/doc", mimeType := some "application/pdf" }

/-- An entry whose only image hint is `encPdf`. -/
def entryEnc : RawEntry := { link := some "N", enclosures := [encPdf] }

/-- An item whose image is a low-value Google proxy thumbnail and whose link
is a Google News redirect. -/
def itemProxy : NewsItem :=
  { title := "t", image_path := some "https://lh3.googleusercontent.com/img",
    source := "s", link := "https://news.google.com/articles/abc", date := none,
    country := "", language := "es" }

/-- A backfill snapshot resolving the Google News redirect of `itemProxy`. -/
def resolveW : String → Option String := fun u =>
  if u = "https://news.google.com/articles/abc" then some "https://real.site/article"
  else none

/-- A backfill snapshot serving an Open-Graph image on the resolved page. -/
def pageW : String → Option PageDoc := fun u =>
  if u = "https://real.site/article" then
    some { ogImage := some "https://real.site/og.png", metaRefreshUrl := none }
  else none

/-- A registered Spanish source with one feed. -/
def srcES : NewsSource :=
  { id := "s2", name := "S2", country := "es-ES", language := "es",
    feeds := ["f2"], homepage := "h" }

/-- A catalog knowing one country (`es-ES`, which has manual pages). -/
def cfgES : Config :=
  { sources_for_country := fun c => if c = "es-ES" then [srcES] else []
    active_sources := [] }

/-- The first manual page URL configured for `es-ES`. -/
def eurydiceUrl : String :=
  "https://eurydice.eacea.ec.europa.eu/es/eurypedia/spain/educacion-superior"

/-- A snapshot where feed `f2` serves the `datetime.min`-dated entry, the
first `es-ES` manual page answers with a matching title, and everything else
fails. -/
def snapC10 : Snapshot :=
  { feed := fun u => if u = "f2" then .ok [entryB] else .error "boom"
    manual := fun u => if u = eurydiceUrl then .ok { title := some "x manual" }
      else .error "boom"
    resolve := fun _ => none
    page := fun _ => none }

/-! ### General lemmas about the pipeline pieces -/

theorem except_map_ok_iff {ε α β : Type} (f : α → β) (e : Except ε α) (b : β) :
    e.map f = .ok b ↔ ∃ a, e = .ok a ∧ b = f a := by
  cases e <;> simp [Except.map, eq_comm]

theorem fetch_news_ok_iff (cfg : Config) (snap : Snapshot) (today : PyDate)
    (keyword : String) (country language period : Option String)
    (date_from date_to : Option PyDate) (page page_size : Nat) (r : FetchResult) :
    fetch_news cfg snap today keyword country language period date_from date_to
        page page_size = .ok r ↔
      ∃ ctx, request_ctx cfg today country language period date_from date_to = .ok ctx ∧
        r = assemble snap keyword language page page_size ctx := by
  unfold fetch_news
  exact except_map_ok_iff _ _ _

theorem dedup_by_link_sublist :
    ∀ (seen : List String) (l : List NewsItem), List.Sublist (dedup_by_link seen l) l
  | _, [] => .slnil
  | seen, x :: xs => by
    unfold dedup_by_link
    split
    · exact .cons x (dedup_by_link_sublist seen xs)
    · exact .cons₂ x (dedup_by_link_sublist (x.link :: seen) xs)

theorem mem_dedup_not_seen : ∀ (seen : List String) (l : List NewsItem) (x : NewsItem),
    x ∈ dedup_by_link seen l → x.link ∉ seen
  | seen, [], x, h => by simp [dedup_by_link] at h
  | seen, z :: xs, x, h => by
    unfold dedup_by_link at h
    split at h
    · exact mem_dedup_not_seen seen xs x h
    · rcases List.mem_cons.1 h with rfl | h2
      · assumption
      · intro hmem
        exact mem_dedup_not_seen (z.link :: seen) xs x h2 (List.mem_cons_of_mem _ hmem)

theorem dedup_links_nodup : ∀ (seen : List String) (l : List NewsItem),
    ((dedup_by_link seen l).map (fun i => i.link)).Nodup
  | seen, [] => by simp [dedup_by_link]
  | seen, z :: xs => by
    unfold dedup_by_link
    split
    · exact dedup_links_nodup seen xs
    · refine List.nodup_cons.2 ⟨?_, dedup_links_nodup (z.link :: seen) xs⟩
      intro hmem
      rcases List.mem_map.1 hmem with ⟨y, hy, hlink⟩
      exact mem_dedup_not_seen (z.link :: seen) xs y hy (hlink ▸ List.mem_cons_self _ _)

theorem mem_dedup_of_mem : ∀ (seen : List String) (l : List NewsItem) (y : NewsItem),
    y ∈ l → y.link ∉ seen →
    ∃ x ∈ dedup_by_link seen l, x.link = y.link
  | seen, [], y, hy, _ => absurd hy (List.not_mem_nil y)
  | seen, z :: xs, y, hy, hseen => by
    unfold dedup_by_link
    rcases List.mem_cons.1 hy with rfl | hy2
    · split
      · next hz => exact absurd hz hseen
      · exact ⟨y, List.mem_cons_self _ _, rfl⟩
    · split
      · exact mem_dedup_of_mem seen xs y hy2 hseen
      · by_cases hl : y.link = z.link
        · exact ⟨z, List.mem_cons_self _ _, hl.symm⟩
        · have hseen2 : y.link ∉ z.link :: seen := by
            intro hmem
            rcases List.mem_cons.1 hmem with h | h
            · exact hl h
            · exact hseen h
          obtain ⟨x, hx, hxl⟩ := mem_dedup_of_mem (z.link :: seen) xs y hy2 hseen2
          exact ⟨x, List.mem_cons_of_mem _ hx, hxl⟩

theorem dedup_first_occurrence : ∀ (seen : List String) (l : List NewsItem) (x : NewsItem),
    x ∈ dedup_by_link seen l →
    ∃ pre post, l = pre ++ x :: post ∧ x.link ∉ seen ∧ ∀ y ∈ pre, y.link ≠ x.link
  | seen, [], x, h => by simp [dedup_by_link] at h
  | seen, z :: xs, x, h => by
    unfold dedup_by_link at h
    split at h
    · next hz =>
      obtain ⟨pre, post, heq, hns, hclean⟩ := dedup_first_occurrence seen xs x h
      refine ⟨z :: pre, post, by rw [heq]; rfl, hns, ?_⟩
      intro y hy
      rcases List.mem_cons.1 hy with rfl | hy2
      · intro hc
        exact hns (hc ▸ hz)
      · exact hclean y hy2
    · next hz =>
      rcases List.mem_cons.1 h with rfl | h2
      · exact ⟨[], xs, rfl, hz, by simp⟩
      · obtain ⟨pre, post, heq, hns, hclean⟩ :=
          dedup_first_occurrence (z.link :: seen) xs x h2
        have hzx : x.link ≠ z.link := fun hc => hns (hc ▸ List.mem_cons_self _ _)
        refine ⟨z :: pre, post, by rw [heq]; rfl, fun hc => hns (List.mem_cons_of_mem _ hc), ?_⟩
        intro y hy
        rcases List.mem_cons.1 hy with rfl | hy2
        · exact fun hc => hzx hc.symm
        · exact hclean y hy2

theorem flatten_chunks {α : Type} (s : Nat) (hs : 0 < s) :
    ∀ (k : Nat) (l : List α), l.length ≤ k * s →
      ((List.range k).map fun i => (l.drop (i * s)).take s).flatten = l
  | 0, l, h => by
    have : l = [] := List.eq_nil_of_length_eq_zero (Nat.le_zero.1 (by simpa using h))
    subst this
    simp
  | k + 1, l, h => by
    rw [List.range_succ_eq_map]
    simp only [List.map_cons, List.map_map, List.flatten_cons, Nat.zero_mul, List.drop_zero]
    have hcomp :
        ((fun i => (l.drop (i * s)).take s) ∘ Nat.succ) =
          fun i => ((l.drop s).drop (i * s)).take s := by
      funext i
      simp only [Function.comp_apply, List.drop_drop]
      rw [Nat.succ_mul, Nat.add_comm (i * s) s, Nat.add_comm s (i * s)]
    rw [hcomp, flatten_chunks s hs k (l.drop s)
      (by rw [List.length_drop]; rw [Nat.succ_mul] at h; omega)]
    exact List.take_append_drop s l

theorem le_ceil_mul (n s : Nat) (hs : 0 < s) : n ≤ ((n + s - 1) / s) * s := by
  have h3 : n + s - 1 < ((n + s - 1) / s + 1) * s :=
    (Nat.div_lt_iff_lt_mul hs).1 (Nat.lt_succ_self _)
  rw [Nat.succ_mul] at h3
  generalize (n + s - 1) / s * s = t at h3 ⊢
  omega

theorem fetch_og_image_eq (resolve : String → Option String)
    (pageSnap : String → Option PageDoc) (item : NewsItem) :
    fetch_og_image resolve pageSnap item =
      match og_image_found resolve pageSnap item.link with
      | some img => { item with image_path := some img }
      | none => item := by
  unfold fetch_og_image og_image_found
  cases hpg : pageSnap (og_target_url resolve item.link) with
  | none => rfl
  | some pg =>
    simp only
    cases himg : og_candidate pageSnap pg with
    | none => simp [pyT]
    | some s =>
      by_cases hs : s = "" <;> simp [pyT, hs]

theorem discard_proxy_some (u : Option String) (img : String)
    (h : discard_proxy u = some img) (hne : img ≠ "") :
    strContains img "googleusercontent.com" = false := by
  cases u with
  | none => exact absurd h (by simp [discard_proxy])
  | some s =>
    simp only [discard_proxy] at h
    by_cases hc : s ≠ "" ∧ strContains s "googleusercontent.com" = true
    · rw [if_pos hc] at h
      exact absurd h (by simp)
    · rw [if_neg hc] at h
      have hsi : s = img := by simpa using h
      subst hsi
      push_neg at hc
      cases hb : strContains s "googleusercontent.com" with
      | false => rfl
      | true => exact absurd hb (by simpa using hc hne)

theorem og_candidate_eq_discard (pageSnap : String → Option PageDoc) (pg : PageDoc) :
    ∃ u, og_candidate pageSnap pg = discard_proxy u := by
  unfold og_candidate
  by_cases h1 : pyT (discard_proxy pg.ogImage)
  · exact ⟨pg.ogImage, if_pos h1⟩
  · rw [if_neg h1]
    cases hm : pg.metaRefreshUrl with
    | none => exact ⟨pg.ogImage, by simp⟩
    | some rurl =>
      cases hp : pageSnap rurl with
      | none => exact ⟨pg.ogImage, by simp [hp]⟩
      | some pg2 => exact ⟨pg2.ogImage, by simp [hp]⟩

theorem og_image_found_not_proxy (resolve : String → Option String)
    (pageSnap : String → Option PageDoc) (link img : String)
    (h : og_image_found resolve pageSnap link = some img) :
    img ≠ "" ∧ strContains img "googleusercontent.com" = false := by
  unfold og_image_found at h
  cases hpg : pageSnap (og_target_url resolve link) with
  | none => rw [hpg] at h; exact absurd h (by simp)
  | some pg =>
    rw [hpg] at h
    simp only at h
    by_cases ht : pyT (og_candidate pageSnap pg)
    · rw [if_pos ht] at h
      have hne : img ≠ "" := by
        rw [h] at ht
        simpa [pyT] using ht
      obtain ⟨u, hu⟩ := og_candidate_eq_discard pageSnap pg
      exact ⟨hne, discard_proxy_some u img (hu ▸ h) hne⟩
    · rw [if_neg ht] at h
      exact absurd h (by simp)

theorem fetch_og_image_link (resolve : String → Option String)
    (pageSnap : String → Option PageDoc) (item : NewsItem) :
    (fetch_og_image resolve pageSnap item).link = item.link := by
  rw [fetch_og_image_eq]
  cases og_image_found resolve pageSnap item.link <;> rfl

theorem fetch_og_image_date (resolve : String → Option String)
    (pageSnap : String → Option PageDoc) (item : NewsItem) :
    (fetch_og_image resolve pageSnap item).date = item.date := by
  rw [fetch_og_image_eq]
  cases og_image_found resolve pageSnap item.link <;> rfl

theorem backfill_images_eq_map (resolve : String → Option String)
    (pageSnap : String → Option PageDoc) (items : List NewsItem) :
    backfill_images resolve pageSnap items = items.map (backfill_one resolve pageSnap) := rfl

theorem backfill_one_link (resolve : String → Option String)
    (pageSnap : String → Option PageDoc) (item : NewsItem) :
    (backfill_one resolve pageSnap item).link = item.link := by
  unfold backfill_one
  split
  · rfl
  · rw [fetch_og_image_link]

theorem backfill_one_date (resolve : String → Option String)
    (pageSnap : String → Option PageDoc) (item : NewsItem) :
    (backfill_one resolve pageSnap item).date = item.date := by
  unfold backfill_one
  split
  · rfl
  · rw [fetch_og_image_date]

theorem backfill_images_map_link (resolve : String → Option String)
    (pageSnap : String → Option PageDoc) (items : List NewsItem) :
    (backfill_images resolve pageSnap items).map (fun i => i.link) =
      items.map (fun i => i.link) := by
  rw [backfill_images_eq_map, List.map_map]
  exact List.map_congr_left fun x _ => backfill_one_link resolve pageSnap x

theorem backfill_images_map_date (resolve : String → Option String)
    (pageSnap : String → Option PageDoc) (items : List NewsItem) :
    (backfill_images resolve pageSnap items).map (fun i => i.date) =
      items.map (fun i => i.date) := by
  rw [backfill_images_eq_map, List.map_map]
  exact List.map_congr_left fun x _ => backfill_one_date resolve pageSnap x

theorem full_sorted_sorted (snap : Snapshot) (keyword : String)
    (language : Option String) (ctx : Ctx) :
    List.Sorted byDateDesc (full_sorted snap keyword language ctx) :=
  List.sorted_insertionSort byDateDesc _

theorem full_sorted_perm (snap : Snapshot) (keyword : String)
    (language : Option String) (ctx : Ctx) :
    List.Perm (full_sorted snap keyword language ctx)
      (dedup_by_link [] (full_filtered snap keyword language ctx)) :=
  List.perm_insertionSort byDateDesc _

theorem full_sorted_links_nodup (snap : Snapshot) (keyword : String)
    (language : Option String) (ctx : Ctx) :
    ((full_sorted snap keyword language ctx).map (fun i => i.link)).Nodup :=
  (List.Perm.nodup_iff ((full_sorted_perm snap keyword language ctx).map _)).2
    (dedup_links_nodup [] _)

theorem mem_full_sorted_filtered (snap : Snapshot) (keyword : String)
    (language : Option String) (ctx : Ctx) (x : NewsItem)
    (h : x ∈ full_sorted snap keyword language ctx) :
    x ∈ full_filtered snap keyword language ctx :=
  (dedup_by_link_sublist [] _).mem
    ((full_sorted_perm snap keyword language ctx).mem_iff.1 h)

theorem mem_filtered_keep (snap : Snapshot) (keyword : String)
    (language : Option String) (ctx : Ctx) (x : NewsItem)
    (h : x ∈ full_filtered snap keyword language ctx) :
    keep_item ctx.lang ctx.effective_from ctx.effective_to x = true :=
  (List.mem_filter.1 h).2

/-- Items of the returned page, before backfill: slice of the full sorted
list. -/
theorem assemble_items (snap : Snapshot) (keyword : String)
    (language : Option String) (page page_size : Nat) (ctx : Ctx) :
    (assemble snap keyword language page page_size ctx).items =
      backfill_images snap.resolve snap.page
        (((full_sorted snap keyword language ctx).drop ((page - 1) * page_size)).take
          page_size) := rfl

theorem assemble_total (snap : Snapshot) (keyword : String)
    (language : Option String) (page page_size : Nat) (ctx : Ctx) :
    (assemble snap keyword language page page_size ctx).total =
      (full_sorted snap keyword language ctx).length := rfl

/-- The date facts `keep_item` guarantees when some effective bound is
active. -/
theorem keep_item_date (lang : Option String) (ef et : Option PyDate) (x : NewsItem)
    (h : keep_item lang ef et x = true) (hb : ef.isSome ∨ et.isSome) :
    ∃ d, x.date = some d ∧
      (∀ f, ef = some f → f ≤ dateOf d) ∧
      (∀ t, et = some t → dateOf d ≤ t) := by
  unfold keep_item at h
  by_cases hl : pyT lang = true ∧ x.language ≠ lang.getD ""
  · rw [if_pos hl] at h
    exact absurd h (by simp)
  · rw [if_neg hl, if_pos hb] at h
    cases hd : x.date with
    | none => rw [hd] at h; exact absurd h (by simp)
    | some d =>
      rw [hd] at h
      simp only [Bool.and_eq_true, Bool.not_eq_true] at h
      refine ⟨d, rfl, ?_, ?_⟩
      · intro f hf
        have := h.1
        rw [hf] at this
        simpa [below_lower_bound, Nat.not_lt] using this
      · intro t ht
        have := h.2
        rw [ht] at this
        simpa [above_upper_bound, Nat.not_lt] using this

/-- With no effective bounds, `keep_item` ignores the item's date entirely. -/
theorem keep_item_no_bounds (lang : Option String) (x y : NewsItem)
    (hxy : x.language = y.language) :
    keep_item lang none none x = keep_item lang none none y := by
  unfold keep_item
  simp [hxy]

/-- A pseudo-item carrying the effective language (date absent) passes the
language check and survives iff no date bound is active. -/
theorem keep_item_pseudo (lang : Option String) (ef et : Option PyDate) (x : NewsItem)
    (hdate : x.date = none) (hlang : x.language = pyOrS lang "") :
    keep_item lang ef et x = !(ef.isSome ∨ et.isSome) := by
  unfold keep_item
  have hl : ¬ (pyT lang = true ∧ x.language ≠ lang.getD "") := by
    rintro ⟨h1, h2⟩
    apply h2
    rw [hlang]
    cases lang with
    | none => exact absurd h1 (by simp [pyT])
    | some s =>
      cases hs : s == "" with
      | true => exact absurd h1 (by simp [pyT, (by simpa using hs : s = "")])
      | false => simp [pyOrS, (by simpa using hs : ¬ s = "")]
  rw [if_neg hl]
  by_cases hb : ef.isSome ∨ et.isSome
  · rw [if_pos hb, hdate]
    simp [hb]
  · rw [if_neg hb]
    simp [hb]

theorem listHas_nil : ∀ (l : List Char), listHas [] l = true
  | [] => rfl
  | _ :: _ => rfl

/-- The empty keyword is a substring of everything. -/
theorem strContains_empty (s : String) : strContains s "" = true :=
  listHas_nil s.data

theorem lookup_mem {β : Type} : ∀ (l : List (String × β)) (a : String) (b : β),
    l.lookup a = some b → (a, b) ∈ l
  | [], _, _, h => by simp [List.lookup] at h
  | (k, v) :: es, a, b, h => by
    rw [List.lookup] at h
    cases hk : a == k with
    | true =>
      rw [hk] at h
      simp only [Option.some.injEq] at h
      subst h
      simp [(by simpa using hk : a = k)]
    | false =>
      rw [hk] at h
      exact List.mem_cons_of_mem _ (lookup_mem es a b h)

theorem lookup_eq_none {β : Type} : ∀ (l : List (String × β)) (a : String),
    a ∉ l.map Prod.fst → l.lookup a = none
  | [], _, _ => rfl
  | (k, v) :: es, a, h => by
    have h1 : a ≠ k := fun hak => h (by simp [hak])
    have h2 : a ∉ es.map Prod.fst := fun hmem => h (by simp [hmem])
    rw [List.lookup]
    cases hk : a == k with
    | true => exact absurd (by simpa using hk : a = k) h1
    | false => exact lookup_eq_none es a h2

/-- Every alias value is a supported canonical country code. -/
theorem alias_values_supported :
    ∀ p ∈ COUNTRY_ALIASES, p.2 ∈ SUPPORTED_COUNTRIES := by decide

/-- A successful `normalize_country` always lands in `SUPPORTED_COUNTRIES`. -/
theorem normalize_country_ok_supported (c v : String)
    (h : normalize_country c = .ok v) : v ∈ SUPPORTED_COUNTRIES := by
  simp only [normalize_country] at h
  cases hl : COUNTRY_ALIASES.lookup (pyLower (pyStrip c)) with
  | some w =>
    rw [hl] at h
    have hv : w = v := by simpa using h
    subst hv
    exact alias_values_supported _ (lookup_mem _ _ _ hl)
  | none =>
    rw [hl] at h
    have h2 : (if c ∈ SUPPORTED_COUNTRIES then Except.ok c
        else Except.error (FetchError.unsupportedCountry c)) = Except.ok v := h
    split at h2
    · next hmem => cases h2; exact hmem
    · exact absurd h2 (by simp)

theorem normalize_country_error (c : String) (e : FetchError)
    (h : normalize_country c = .error e) : e = .unsupportedCountry c := by
  simp only [normalize_country] at h
  cases hl : COUNTRY_ALIASES.lookup (pyLower (pyStrip c)) with
  | some w => rw [hl] at h; exact absurd h (by simp)
  | none =>
    rw [hl] at h
    have h2 : (if c ∈ SUPPORTED_COUNTRIES then Except.ok c
        else Except.error (FetchError.unsupportedCountry c)) = Except.error e := h
    split at h2
    · exact absurd h2 (by simp)
    · simpa [eq_comm] using h2

theorem resolve_country_error (country : Option String) (e : FetchError)
    (h : resolve_country country = .error e) : ∃ c, e = .unsupportedCountry c := by
  cases country with
  | none => exact absurd h (by simp [resolve_country])
  | some c =>
    simp only [resolve_country] at h
    by_cases hc : c = ""
    · rw [if_pos hc] at h; exact absurd h (by simp)
    · rw [if_neg hc] at h
      cases hn : normalize_country c with
      | ok v => rw [hn] at h; exact absurd h (by simp [Except.map])
      | error e2 =>
        rw [hn] at h
        have : e2 = e := by simpa [Except.map] using h
        exact ⟨c, by rw [← this, normalize_country_error c e2 hn]⟩

theorem resolve_country_ok_supported (country : Option String) (c : String)
    (h : resolve_country country = .ok (some c)) : c ∈ SUPPORTED_COUNTRIES := by
  cases country with
  | none => exact absurd h (by simp [resolve_country])
  | some c0 =>
    simp only [resolve_country] at h
    by_cases hc : c0 = ""
    · rw [if_pos hc] at h; exact absurd h (by simp)
    · rw [if_neg hc] at h
      cases hn : normalize_country c0 with
      | ok v =>
        rw [hn] at h
        have : v = c := by simpa [Except.map] using h
        exact this ▸ normalize_country_ok_supported c0 v hn
      | error e2 => rw [hn] at h; exact absurd h (by simp [Except.map])

theorem date_range_error (today : PyDate) (p : Option String) (e : FetchError)
    (h : date_range_from_period today p = .error e) : e = .invalidPeriod := by
  cases p with
  | none => exact absurd h (by simp [date_range_from_period])
  | some s =>
    simp only [date_range_from_period] at h
    by_cases h0 : s = ""
    · rw [if_pos h0] at h; exact absurd h (by simp)
    · rw [if_neg h0] at h
      by_cases h1 : pyLower s = "day"
      · rw [if_pos h1] at h; exact absurd h (by simp)
      · rw [if_neg h1] at h
        by_cases h2 : pyLower s = "week"
        · rw [if_pos h2] at h; exact absurd h (by simp)
        · rw [if_neg h2] at h
          by_cases h3 : pyLower s = "month"
          · rw [if_pos h3] at h; exact absurd h (by simp)
          · rw [if_neg h3] at h
            by_cases h4 : pyLower s = "year"
            · rw [if_pos h4] at h; exact absurd h (by simp)
            · rw [if_neg h4] at h
              simpa [eq_comm] using h

theorem request_ctx_error (cfg : Config) (today : PyDate)
    (country language period : Option String) (date_from date_to : Option PyDate)
    (e : FetchError)
    (hcat : ∀ c ∈ SUPPORTED_COUNTRIES, cfg.sources_for_country c ≠ [])
    (h : request_ctx cfg today country language period date_from date_to = .error e) :
    (∃ c, e = .unsupportedCountry c) ∨ e = .invalidPeriod := by
  unfold request_ctx at h
  cases hrc : resolve_country country with
  | error e1 =>
    rw [hrc] at h
    have : e1 = e := by simpa [Bind.bind, Except.bind] using h
    exact Or.inl (this ▸ resolve_country_error country e1 hrc)
  | ok nc =>
    rw [hrc] at h
    simp only [Bind.bind, Except.bind] at h
    cases nc with
    | none =>
      simp only [select_sources] at h
      cases hdr : date_range_from_period today period with
      | error e2 =>
        rw [hdr] at h
        have : e2 = e := by simpa using h
        exact Or.inr (this ▸ date_range_error today period e2 hdr)
      | ok pr => rw [hdr] at h; exact absurd h (by simp)
    | some c =>
      have hne := hcat c (resolve_country_ok_supported country c hrc)
      simp only [select_sources] at h
      rw [if_neg (by simpa using hne)] at h
      cases hdr : date_range_from_period today period with
      | error e2 =>
        rw [hdr] at h
        have : e2 = e := by simpa using h
        exact Or.inr (this ▸ date_range_error today period e2 hdr)
      | ok pr => rw [hdr] at h; exact absurd h (by simp)

theorem request_ctx_ok (cfg : Config) (today : PyDate)
    (country language period : Option String) (date_from date_to : Option PyDate)
    (hcat : ∀ c ∈ SUPPORTED_COUNTRIES, cfg.sources_for_country c ≠ [])
    (hc : ∃ nc, resolve_country country = .ok nc)
    (hp : ∃ pr, date_range_from_period today period = .ok pr) :
    ∃ ctx, request_ctx cfg today country language period date_from date_to = .ok ctx := by
  obtain ⟨nc, hnc⟩ := hc
  obtain ⟨pr, hpr⟩ := hp
  unfold request_ctx
  rw [hnc]
  simp only [Bind.bind, Except.bind]
  cases nc with
  | none =>
    simp only [select_sources]
    rw [hpr]
    exact ⟨_, rfl⟩
  | some c =>
    have hne := hcat c (resolve_country_ok_supported country c hnc)
    simp only [select_sources]
    rw [if_neg (by simpa using hne), hpr]
    exact ⟨_, rfl⟩

theorem request_ctx_eff (cfg : Config) (today : PyDate)
    (country language period : Option String) (date_from date_to : Option PyDate)
    (ctx : Ctx)
    (h : request_ctx cfg today country language period date_from date_to = .ok ctx) :
    ∃ pf pt, date_range_from_period today period = .ok (pf, pt) ∧
      ctx.effective_from = (date_from <|> pf) ∧ ctx.effective_to = (date_to <|> pt) := by
  unfold request_ctx at h
  cases hrc : resolve_country country with
  | error e1 => rw [hrc] at h; exact absurd h (by simp [Bind.bind, Except.bind])
  | ok nc =>
    rw [hrc] at h
    simp only [Bind.bind, Except.bind] at h
    cases hss : select_sources cfg nc with
    | error e2 => rw [hss] at h; exact absurd h (by simp)
    | ok sources =>
      rw [hss] at h
      cases hdr : date_range_from_period today period with
      | error e3 => rw [hdr] at h; exact absurd h (by simp)
      | ok pr =>
        rw [hdr] at h
        refine ⟨pr.1, pr.2, by simp, ?_, ?_⟩ <;>
          · cases h
            rfl

theorem sortKey_backfill_one (resolve : String → Option String)
    (pageSnap : String → Option PageDoc) (item : NewsItem) :
    sortKey (backfill_one resolve pageSnap item) = sortKey item := by
  unfold sortKey
  rw [backfill_one_date]

/-- The page slice is a sublist of the full sorted list. -/
theorem page_slice_sublist (u : List NewsItem) (a b : Nat) :
    List.Sublist ((u.drop a).take b) u :=
  (List.take_sublist _ _).trans (List.drop_sublist _ _)

/-- The items of every successful aggregation call are pairwise ordered by
the descending sort key. -/
theorem fetch_news_items_pairwise (cfg : Config) (snap : Snapshot) (today : PyDate)
    (keyword : String) (country language period : Option String)
    (date_from date_to : Option PyDate) (page page_size : Nat) (r : FetchResult)
    (h : fetch_news cfg snap today keyword country language period date_from date_to
      page page_size = .ok r) :
    List.Pairwise byDateDesc r.items := by
  obtain ⟨ctx, hctx, rfl⟩ :=
    (fetch_news_ok_iff cfg snap today keyword country language period date_from date_to
      page page_size r).1 h
  rw [assemble_items, backfill_images_eq_map, List.pairwise_map]
  refine List.Pairwise.imp ?_
    ((full_sorted_sorted snap keyword language ctx).sublist (page_slice_sublist _ _ _))
  intro a b hab
  unfold byDateDesc
  rwa [sortKey_backfill_one, sortKey_backfill_one]

/-! ### The claims -/

/-- C1: for every successful aggregation call, the link values of the
returned items and of the full filtered set counted by `total` are pairwise
distinct; deduplication keeps, for each link, the first item of the
merge-ordered filtered list and drops every later item with the same link
(every filtered link is still represented). -/
theorem C1_unique_links (cfg : Config) (snap : Snapshot) (today : PyDate)
    (keyword : String) (country language period : Option String)
    (date_from date_to : Option PyDate) (page page_size : Nat) (r : FetchResult)
    (h : fetch_news cfg snap today keyword country language period date_from date_to
      page page_size = .ok r) :
    (r.items.map (fun i => i.link)).Nodup ∧
      ∃ ctx, request_ctx cfg today country language period date_from date_to = .ok ctx ∧
        r.total = (full_sorted snap keyword language ctx).length ∧
        ((full_sorted snap keyword language ctx).map (fun i => i.link)).Nodup ∧
        (∀ x ∈ dedup_by_link [] (full_filtered snap keyword language ctx),
          ∃ pre post, full_filtered snap keyword language ctx = pre ++ x :: post ∧
            ∀ y ∈ pre, y.link ≠ x.link) ∧
        (∀ y ∈ full_filtered snap keyword language ctx,
          ∃ x ∈ dedup_by_link [] (full_filtered snap keyword language ctx),
            x.link = y.link) := by
  obtain ⟨ctx, hctx, rfl⟩ :=
    (fetch_news_ok_iff cfg snap today keyword country language period date_from date_to
      page page_size r).1 h
  constructor
  · rw [assemble_items, backfill_images_map_link]
    exact ((page_slice_sublist _ _ _).map _).nodup
      (full_sorted_links_nodup snap keyword language ctx)
  · refine ⟨ctx, hctx, assemble_total snap keyword language page page_size ctx, ?_, ?_, ?_⟩
    · exact full_sorted_links_nodup snap keyword language ctx
    · intro x hx
      obtain ⟨pre, post, heq, _, hclean⟩ := dedup_first_occurrence [] _ x hx
      exact ⟨pre, post, heq, hclean⟩
    · intro y hy
      exact mem_dedup_of_mem [] _ y hy (by simp)

/-- Witness for C1 at a concrete catalog and snapshot (the duplicated link
`C` is dropped once). -/
theorem C1_unique_links_witness :
    fetch_news cfgAR snapC1 1000 "x" (some "ar") none none none none 1 10 =
        .ok ((fetch_news cfgAR snapC1 1000 "x" (some "ar") none none none none
          1 10).toOption.getD default) ∧
      (((fetch_news cfgAR snapC1 1000 "x" (some "ar") none none none none
          1 10).toOption.getD default).items.map (fun i => i.link)).Nodup :=
  ⟨by decide,
   (C1_unique_links cfgAR snapC1 1000 "x" (some "ar") none none none none 1 10 _
     (by decide)).1⟩

/-- C2 counterexample: with one undated entry (`A`) and one entry dated
exactly `datetime.min` (`B`, e.g. a feed publishing `0001-01-01T00:00:00`),
both share the sort key, the stable sort keeps merge order, and the undated
item `A` is returned *before* the dated item `B` — refuting "no undated item
ever appears before a dated item". -/
theorem C2_counterexample :
    (fetch_news cfgAR snapC2 1000 "x" (some "ar") none none none none 1 10).map
        (fun r => (r.items.map fun i => i.date, no_undated_before_dated r.items)) =
      .ok ([none, some 0], false) := by decide

/-- C2 (amended): the returned items are ordered non-increasing by the sort
key (`published_at`, with a missing value compared as the minimal timestamp
`datetime.min`); consequently no undated item ever appears before an item
whose `published_at` is strictly greater than the minimal timestamp — but an
undated item may precede an item dated exactly at the minimal timestamp,
since the two share the sort key. -/
theorem C2_sorted_desc (cfg : Config) (snap : Snapshot) (today : PyDate)
    (keyword : String) (country language period : Option String)
    (date_from date_to : Option PyDate) (page page_size : Nat) (r : FetchResult)
    (h : fetch_news cfg snap today keyword country language period date_from date_to
      page page_size = .ok r) :
    List.Pairwise byDateDesc r.items ∧
      List.Pairwise (fun a b => a.date = none → sortKey b = 0) r.items := by
  have hsorted : List.Pairwise byDateDesc r.items :=
    fetch_news_items_pairwise cfg snap today keyword country language period
      date_from date_to page page_size r h
  refine ⟨hsorted, List.Pairwise.imp ?_ hsorted⟩
  intro a b hab ha
  have hka : sortKey a = 0 := by rw [sortKey, ha]; rfl
  exact Nat.le_zero.1 (hka ▸ hab)

/-- Witness for C2 (amended) at a concrete catalog and snapshot. -/
theorem C2_sorted_desc_witness :
    fetch_news cfgAR snapC1 1000 "x" (some "ar") none none none none 1 10 =
        .ok ((fetch_news cfgAR snapC1 1000 "x" (some "ar") none none none none
          1 10).toOption.getD default) ∧
      List.Pairwise byDateDesc
        ((fetch_news cfgAR snapC1 1000 "x" (some "ar") none none none none
          1 10).toOption.getD default).items :=
  ⟨by decide,
   (C2_sorted_desc cfgAR snapC1 1000 "x" (some "ar") none none none none 1 10 _
     (by decide)).1⟩

/-- C3: with the request parameters and fetched snapshot fixed, page `n` of
size `s` returns exactly the slice `[(n-1)*s, n*s)` of the full filtered,
deduplicated, sorted set (image-backfilled per item), and concatenating
pages `1` through `ceil(total/s)` reproduces that full set exactly, with no
gaps and no overlaps. -/
theorem C3_pagination (cfg : Config) (snap : Snapshot) (today : PyDate)
    (keyword : String) (country language period : Option String)
    (date_from date_to : Option PyDate) (page_size : Nat) (ctx : Ctx)
    (hs : 0 < page_size)
    (hctx : request_ctx cfg today country language period date_from date_to = .ok ctx) :
    (∀ n, 1 ≤ n →
      (fetch_news cfg snap today keyword country language period date_from date_to
          n page_size).map (fun r => r.items) =
        .ok (((backfill_images snap.resolve snap.page
            (full_sorted snap keyword language ctx)).drop ((n - 1) * page_size)).take
          page_size)) ∧
    ((List.range (((full_sorted snap keyword language ctx).length + page_size - 1) /
          page_size)).map fun i =>
        ((backfill_images snap.resolve snap.page
            (full_sorted snap keyword language ctx)).drop ((i + 1 - 1) * page_size)).take
          page_size).flatten =
      backfill_images snap.resolve snap.page (full_sorted snap keyword language ctx) := by
  constructor
  · intro n hn
    unfold fetch_news
    rw [hctx]
    simp only [Except.map]
    refine congrArg Except.ok ?_
    rw [assemble_items, backfill_images_eq_map, backfill_images_eq_map,
      List.map_take, List.map_drop]
  · have hbound :
        (backfill_images snap.resolve snap.page
          (full_sorted snap keyword language ctx)).length ≤
        (((full_sorted snap keyword language ctx).length + page_size - 1) / page_size) *
          page_size := by
      rw [backfill_images_eq_map, List.length_map]
      exact le_ceil_mul _ _ hs
    have hj := flatten_chunks page_size hs
      (((full_sorted snap keyword language ctx).length + page_size - 1) / page_size)
      (backfill_images snap.resolve snap.page (full_sorted snap keyword language ctx))
      hbound
    simpa only [Nat.add_sub_cancel] using hj

/-- Witness for C3 at a concrete catalog and snapshot with page size 2. -/
theorem C3_pagination_witness :
    0 < 2 ∧
      request_ctx cfgAR 1000 (some "ar") none none none none = .ok ctxAR ∧
      (fetch_news cfgAR snapC1 1000 "x" (some "ar") none none none none 1 2).map
          (fun r => r.items) =
        .ok (((backfill_images snapC1.resolve snapC1.page
            (full_sorted snapC1 "x" none ctxAR)).drop ((1 - 1) * 2)).take 2) :=
  ⟨by decide, by decide,
   (C3_pagination cfgAR snapC1 1000 "x" (some "ar") none none none none 2 ctxAR
     (by decide) (by decide)).1 1 (by decide)⟩

/-- C4: whenever any effective date bound is active, every returned item
carries a date inside the inclusive bounds (a missing bound unconstrained)
and undated items are excluded; the period tokens day/week/month/year derive
the range `[today - N, today]` with `N` = 1/7/30/365; an explicit
`date_from`/`date_to` pair takes precedence over the period range; and with
no explicit dates and no period, no date bound is active. -/
theorem C4_date_filter (cfg : Config) (snap : Snapshot) (today : PyDate)
    (keyword : String) (country language period : Option String)
    (date_from date_to : Option PyDate) (page page_size : Nat) (r : FetchResult)
    (h : fetch_news cfg snap today keyword country language period date_from date_to
      page page_size = .ok r) :
    (∃ ctx, request_ctx cfg today country language period date_from date_to = .ok ctx ∧
      ((ctx.effective_from.isSome ∨ ctx.effective_to.isSome) →
        ∀ x ∈ r.items, ∃ d, x.date = some d ∧
          (∀ f, ctx.effective_from = some f → f ≤ dateOf d) ∧
          (∀ t, ctx.effective_to = some t → dateOf d ≤ t)) ∧
      (∀ a b, date_from = some a → date_to = some b →
        ctx.effective_from = some a ∧ ctx.effective_to = some b) ∧
      (date_from = none → date_to = none → period = none →
        ctx.effective_from = none ∧ ctx.effective_to = none)) ∧
    date_range_from_period today (some "day") = .ok (some (today - 1), some today) ∧
    date_range_from_period today (some "week") = .ok (some (today - 7), some today) ∧
    date_range_from_period today (some "month") = .ok (some (today - 30), some today) ∧
    date_range_from_period today (some "year") = .ok (some (today - 365), some today) := by
  obtain ⟨ctx, hctx, rfl⟩ :=
    (fetch_news_ok_iff cfg snap today keyword country language period date_from date_to
      page page_size r).1 h
  obtain ⟨pf, pt, hdr, hef, het⟩ :=
    request_ctx_eff cfg today country language period date_from date_to ctx hctx
  refine ⟨⟨ctx, hctx, ?_, ?_, ?_⟩, rfl, rfl, rfl, rfl⟩
  · intro hb x hx
    rw [assemble_items, backfill_images_eq_map] at hx
    obtain ⟨y, hy, rfl⟩ := List.mem_map.1 hx
    have hyu : y ∈ full_sorted snap keyword language ctx :=
      (page_slice_sublist _ _ _).mem hy
    have hkeep :=
      mem_filtered_keep snap keyword language ctx y
        (mem_full_sorted_filtered snap keyword language ctx y hyu)
    obtain ⟨d, hd, h1, h2⟩ := keep_item_date ctx.lang _ _ y hkeep hb
    exact ⟨d, by rw [backfill_one_date]; exact hd, h1, h2⟩
  · intro a b ha hb
    rw [hef, het, ha, hb]
    exact ⟨rfl, rfl⟩
  · intro h1 h2 h3
    subst h1; subst h2; subst h3
    have : date_range_from_period today none = .ok (none, none) := rfl
    rw [this] at hdr
    cases hdr
    exact ⟨hef, het⟩

/-- Witness for C4 with `period="week"` at a concrete catalog and snapshot. -/
theorem C4_date_filter_witness :
    fetch_news cfgAR snapC1 1000 "x" (some "ar") none (some "week") none none 1 10 =
        .ok ((fetch_news cfgAR snapC1 1000 "x" (some "ar") none (some "week") none none
          1 10).toOption.getD default) ∧
      date_range_from_period 1000 (some "week") = .ok (some 993, some 1000) :=
  ⟨by decide,
   (C4_date_filter cfgAR snapC1 1000 "x" (some "ar") none (some "week") none none 1 10
     ((fetch_news cfgAR snapC1 1000 "x" (some "ar") none (some "week") none none
       1 10).toOption.getD default)
     (by decide)).2.2.1⟩

/-- C7: country resolution strips whitespace and lower-cases before alias
lookup, so `ar`, `argentina` and `ES-ar` all resolve to `es-AR`; every
canonical supported code passes through unchanged; any other supplied country
fails with the unsupported-country error; and an absent country is accepted,
resolves to the sentinel "all" and searches the active sources. -/
theorem C7_country_resolution :
    normalize_country "ar" = .ok "es-AR" ∧
    normalize_country "argentina" = .ok "es-AR" ∧
    normalize_country "ES-ar" = .ok "es-AR" ∧
    (∀ c ∈ SUPPORTED_COUNTRIES, normalize_country c = .ok c) ∧
    (∀ c, pyLower (pyStrip c) ∉ COUNTRY_ALIASES.map Prod.fst →
      c ∉ SUPPORTED_COUNTRIES →
      normalize_country c = .error (.unsupportedCountry c)) ∧
    (∀ (cfg : Config) (snap : Snapshot) (today : PyDate) (keyword : String)
        (language : Option String) (date_from date_to : Option PyDate)
        (page page_size : Nat),
      ∃ r, fetch_news cfg snap today keyword none language none date_from date_to
          page page_size = .ok r ∧ r.resolved_country = "all") := by
  refine ⟨by decide, by decide, by decide, by decide, ?_, ?_⟩
  · intro c h1 h2
    simp only [normalize_country]
    rw [lookup_eq_none _ _ h1]
    exact if_neg h2
  · intro cfg snap today keyword language date_from date_to page page_size
    exact ⟨assemble snap keyword language page page_size
      { normalized_country := none, sources := cfg.active_sources,
        lang := effective_language language none cfg.active_sources,
        effective_from := date_from <|> none, effective_to := date_to <|> none },
      rfl, rfl⟩

/-- Witness for C7: a canonical code passes through; an unknown code fails. -/
theorem C7_country_resolution_witness :
    normalize_country "es-CO" = .ok "es-CO" ∧
      normalize_country "zz" = .error (.unsupportedCountry "zz") :=
  ⟨C7_country_resolution.2.2.2.1 "es-CO" (by decide),
   C7_country_resolution.2.2.2.2.1 "zz" (by decide) (by decide)⟩

/-- C6: under a catalog that configures at least one source for every
supported country (as the spec requires of the real catalog), the only
errors `fetch_news` can raise are the unsupported-country and invalid-period
validation failures, and every input passing those two validations returns a
result — for every snapshot, including arbitrarily failing fetches. -/
theorem C6_error_taxonomy (cfg : Config) (snap : Snapshot) (today : PyDate)
    (keyword : String) (country language period : Option String)
    (date_from date_to : Option PyDate) (page page_size : Nat)
    (hcat : ∀ c ∈ SUPPORTED_COUNTRIES, cfg.sources_for_country c ≠ []) :
    (∀ e, fetch_news cfg snap today keyword country language period date_from date_to
        page page_size = .error e →
      (∃ c, e = .unsupportedCountry c) ∨ e = .invalidPeriod) ∧
    ((∃ nc, resolve_country country = .ok nc) →
      (∃ pr, date_range_from_period today period = .ok pr) →
      ∃ r, fetch_news cfg snap today keyword country language period date_from date_to
        page page_size = .ok r) := by
  constructor
  · intro e he
    unfold fetch_news at he
    cases hrc : request_ctx cfg today country language period date_from date_to with
    | error e2 =>
      rw [hrc] at he
      have : e2 = e := by simpa [Except.map] using he
      exact this ▸
        request_ctx_error cfg today country language period date_from date_to e2 hcat hrc
    | ok ctx =>
      rw [hrc] at he
      exact absurd he (by simp [Except.map])
  · intro hc hp
    obtain ⟨ctx, hctx⟩ :=
      request_ctx_ok cfg today country language period date_from date_to hcat hc hp
    refine ⟨assemble snap keyword language page page_size ctx, ?_⟩
    unfold fetch_news
    rw [hctx]
    rfl

/-- Witness for C6: a full catalog, a valid request and a snapshot whose
fetches all fail still produce a result. -/
theorem C6_error_taxonomy_witness :
    (∀ c ∈ SUPPORTED_COUNTRIES, cfgAll.sources_for_country c ≠ []) ∧
      (∃ r, fetch_news cfgAll snapC1 1000 "x" (some "ar") none (some "week") none none
        1 10 = .ok r) :=
  ⟨by decide,
   (C6_error_taxonomy cfgAll snapC1 1000 "x" (some "ar") none (some "week") none none
       1 10 (by decide)).2
     ⟨some "es-AR", by decide⟩ ⟨(some 993, some 1000), by decide⟩⟩

/-- C5 counterexample: the synthesized Google News fallback feed is fetched
with `keyword_lower=None` (`app/scraper.py:254`), so its entries are kept
with no per-entry keyword test: with keyword `zzz`, the fallback entry
`hello` is returned although the folded keyword does not occur in its folded
title+summary+source text — refuting "applied per entry of every fetched
feed". -/
theorem C5_counterexample :
    (fetch_news cfgEmpty snapG 1000 "zzz" none none none none none 1 10).map
        (fun r => r.items.map fun i => (i.link, i.source)) =
      .ok [("L", "Google News")] ∧
      strContains (normalize_text ("hello" ++ " " ++ "" ++ " " ++ "Google News"))
        (normalize_text "zzz") = false :=
  ⟨by decide, by decide⟩

/-- C5 (amended): for every feed fetched with the supplied keyword — every
registered source's feed, but not the synthesized Google News fallback feed,
which is fetched with no per-entry filter — an entry with a (truthy) link is
kept iff the folded keyword occurs in the folded concatenation of its title,
summary and channel/source title; the folding is accent- and
case-insensitive, e.g. "Educación Superior" matches `educacion`. -/
theorem C5_keyword_filter (source : NewsSource) (kw : String) (entry : RawEntry)
    (hlink : pyOrS entry.link "" ≠ "") :
    ((normalize_entry source (some (normalize_text kw)) entry).isSome = true ↔
      strContains
        (normalize_text ((entry.title.getD "") ++ " " ++
          (pyOrS entry.summary (pyOrS entry.description "")) ++ " " ++
          (pyOrS entry.source_title source.name)))
        (normalize_text kw) = true) ∧
    strContains (normalize_text "Educación Superior") (normalize_text "educacion") =
      true := by
  refine ⟨?_, by decide⟩
  simp only [normalize_entry]
  rw [if_neg hlink]
  by_cases hkw : normalize_text kw = ""
  · rw [hkw]
    simp [strContains_empty]
  · simp only [if_neg hkw]
    cases hsc : strContains
        (normalize_text ((entry.title.getD "") ++ " " ++
          (pyOrS entry.summary (pyOrS entry.description "")) ++ " " ++
          (pyOrS entry.source_title source.name)))
        (normalize_text kw) <;>
      simp [hsc]

/-- Witness for C5 (amended): the accented entry matches the unaccented
keyword and is kept. -/
theorem C5_keyword_filter_witness :
    (pyOrS entryEdu.link "" ≠ "") ∧
      (normalize_entry srcAR (some (normalize_text "educacion")) entryEdu).isSome =
        true :=
  ⟨by decide,
   (C5_keyword_filter srcAR "educacion" entryEdu (by decide)).1.mpr (by decide)⟩

/-- C8 counterexample: an enclosure with URL `http://x/pic.jpg` (an image by
URL extension) but MIME type `application/pdf` is NOT used: the source only
tests the MIME string (`app/scraper.py:123`), so extraction returns nothing,
refuting "enclosure whose MIME type or URL extension indicates an image". -/
theorem C8_counterexample :
    parse_entry_image entryEnc = none ∧
      entryEnc.enclosures = [encPdf] ∧
      pyOrS encPdf.href (pyOrS encPdf.url "") = "http://x/pic.jpg" ∧
      extIndicatesImage (pyLower "http://x/pic.jpg") = true :=
  ⟨by decide, by decide, by decide, by decide⟩

/-- C8 (amended): image extraction tries, in order, first hit winning:
the first media:content element's URL, the first media:thumbnail element's
URL, the first enclosure with a truthy URL whose lower-cased MIME type
contains "image" or ends in jpg/jpeg/png/webp (the URL's own extension is
never consulted: acceptance depends on the MIME type alone), and finally an
`img src=` match inside inline HTML content; when nothing applies the image
is absent (extraction is a total function and never raises). -/
theorem C8_image_precedence (e : RawEntry) :
    (parse_entry_image e =
      ((imageFromMedia (pyOrL e.media_content e.media_content_alt)).or
        ((imageFromMedia (pyOrL e.media_thumbnail e.media_thumbnail_alt)).or
          ((imageFromEnclosures e.enclosures).or (imageFromContent e.content))))) ∧
    (∀ encs, imageFromEnclosures encs =
      ((encs.filter fun enc =>
          pyOrS enc.href (pyOrS enc.url "") ≠ "" ∧
            imageMime (pyLower (pyOrS enc.mimeType "")) = true).head?).map
        fun enc => pyOrS enc.href (pyOrS enc.url "")) ∧
    (∀ m : String, imageMime m = (strContains m "image" || extIndicatesImage m)) ∧
    (∀ enc₁ enc₂ : Enclosure, enc₁.mimeType = enc₂.mimeType →
      pyOrS enc₁.href (pyOrS enc₁.url "") ≠ "" →
      pyOrS enc₂.href (pyOrS enc₂.url "") ≠ "" →
      ((imageFromEnclosures [enc₁]).isSome ↔ (imageFromEnclosures [enc₂]).isSome)) ∧
    (∀ (m : MediaRef) (rest : List MediaRef),
      imageFromMedia (m :: rest) = imageFromMedia [m]) := by
  refine ⟨?_, ?_, ?_, ?_, ?_⟩
  · unfold parse_entry_image
    cases h1 : imageFromMedia (pyOrL e.media_content e.media_content_alt) <;>
      cases h2 : imageFromMedia (pyOrL e.media_thumbnail e.media_thumbnail_alt) <;>
        cases h3 : imageFromEnclosures e.enclosures <;>
          simp [Option.or]
  · intro encs
    induction encs with
    | nil => rfl
    | cons enc rest ih =>
      by_cases hu : pyOrS enc.href (pyOrS enc.url "") = ""
      · simp only [imageFromEnclosures, List.findSome?_cons, List.filter_cons] at ih ⊢
        simp [hu] at ih ⊢
        exact ih
      · by_cases hm : imageMime (pyLower (pyOrS enc.mimeType "")) = true
        · simp only [imageFromEnclosures, List.findSome?_cons, List.filter_cons]
          simp [hu, hm]
        · simp only [imageFromEnclosures, List.findSome?_cons, List.filter_cons] at ih ⊢
          simp [hu, hm] at ih ⊢
          exact ih
  · intro m
    simp [imageMime, extIndicatesImage, Bool.or_assoc]
  · intro e1 e2 hm h1 h2
    simp only [imageFromEnclosures, List.findSome?_cons, List.findSome?_nil]
    rw [if_neg h1, if_neg h2, hm]
    by_cases hmm : imageMime (pyLower (pyOrS e2.mimeType "")) = true <;>
      simp [hmm]
  · intro m rest
    rfl

/-- Witness for C8 (amended): two enclosures with the same non-image MIME
type are treated alike although only one URL looks like an image. -/
theorem C8_image_precedence_witness :
    (encPdf.mimeType = encPdf2.mimeType ∧
      pyOrS encPdf.href (pyOrS encPdf.url "") ≠ "" ∧
      pyOrS encPdf2.href (pyOrS encPdf2.url "") ≠ "") ∧
      ((imageFromEnclosures [encPdf]).isSome ↔ (imageFromEnclosures [encPdf2]).isSome) :=
  ⟨⟨by decide, by decide, by decide⟩,
   (C8_image_precedence entryEnc).2.2.2.1 encPdf encPdf2 (by decide) (by decide)
     (by decide)⟩

/-- C9: backfill maps over exactly the current page's items; an item is
fetched iff it has no (truthy) image or its image is from the proxy domain
`googleusercontent.com`; a candidate's image is cleared before the fetch, so
its result depends only on the resolution chain of its link; an image the
chain extracts (directly or after the single meta-refresh hop) that is
itself from the proxy domain is discarded as if not found; and no choice of
backfill snapshot changes the warnings (or any non-image output) of an
aggregation call — every backfill failure is silent. -/
theorem C9_backfill (resolve : String → Option String)
    (pageSnap : String → Option PageDoc) :
    (∀ items, backfill_images resolve pageSnap items =
      items.map (backfill_one resolve pageSnap)) ∧
    (∀ item : NewsItem, backfill_skip item = false ↔
      (item.image_path = none ∨ item.image_path = some "" ∨
        ∃ s, item.image_path = some s ∧ strContains s "googleusercontent.com" = true)) ∧
    (∀ item, backfill_skip item = true → backfill_one resolve pageSnap item = item) ∧
    (∀ item, backfill_skip item = false →
      backfill_one resolve pageSnap item =
        match og_image_found resolve pageSnap item.link with
        | some img => { item with image_path := some img }
        | none => { item with image_path := none }) ∧
    (∀ link img, og_image_found resolve pageSnap link = some img →
      img ≠ "" ∧ strContains img "googleusercontent.com" = false) ∧
    (∀ (cfg : Config) (snap : Snapshot) (today : PyDate) (keyword : String)
        (country language period : Option String) (date_from date_to : Option PyDate)
        (page page_size : Nat) (resolve2 : String → Option String)
        (pageSnap2 : String → Option PageDoc),
      (fetch_news cfg { snap with resolve := resolve, page := pageSnap } today keyword
          country language period date_from date_to page page_size).map
        (fun r => (r.warnings, r.total, r.resolved_country, r.feed_urls,
          r.items.map fun i => i.link)) =
      (fetch_news cfg { snap with resolve := resolve2, page := pageSnap2 } today keyword
          country language period date_from date_to page page_size).map
        (fun r => (r.warnings, r.total, r.resolved_country, r.feed_urls,
          r.items.map fun i => i.link))) := by
  refine ⟨fun _ => rfl, ?_, ?_, ?_, og_image_found_not_proxy resolve pageSnap, ?_⟩
  · intro item
    cases hip : item.image_path with
    | none => simp [backfill_skip, pyT, hip]
    | some s =>
      by_cases hs : s = ""
      · simp [backfill_skip, pyT, hip, hs]
      · by_cases hc : strContains s "googleusercontent.com" = true
        · simp [backfill_skip, pyT, hip, hs, hc]
        · simp [backfill_skip, pyT, hip, hs, hc]
  · intro item hskip
    unfold backfill_one
    rw [if_pos hskip]
  · intro item hskip
    unfold backfill_one
    rw [if_neg (by simp [hskip])]
    rw [fetch_og_image_eq]
  · intro cfg snap today keyword country language period date_from date_to
      page page_size resolve2 pageSnap2
    unfold fetch_news
    cases hctx : request_ctx cfg today country language period date_from date_to with
    | error e => rfl
    | ok ctx =>
      simp only [Except.map]
      refine congrArg Except.ok ?_
      rw [assemble_items, assemble_items, backfill_images_map_link,
        backfill_images_map_link]
      rfl

/-- Witness for C9: the proxy-image item is a candidate and gets the
resolved page's Open-Graph image. -/
theorem C9_backfill_witness :
    backfill_skip itemProxy = false ∧
      backfill_one resolveW pageW itemProxy =
        { itemProxy with image_path := some "https://real.site/og.png" } :=
  ⟨by decide, by
    rw [(C9_backfill resolveW pageW).2.2.2.1 itemProxy (by decide)]
    decide⟩

/-- C10 counterexample: with country `es-ES`, a manual page matching the
keyword, and a feed entry dated exactly `datetime.min`, the manual
pseudo-item (merged first) ties with the dated entry on the sort key and is
returned *before* it — refuting "manual pseudo-items appear after every
dated item". -/
theorem C10_counterexample :
    (fetch_news cfgES snapC10 1000 "x" (some "es") none none none none 1 10).map
        (fun r => (r.items.map fun i => (i.link, i.date), dated_after_pseudo r.items)) =
      .ok ([(eurydiceUrl, none), ("B", some 0)], true) ∧
      eurydiceUrl ∈ manual_sources_for_country "es-ES" :=
  ⟨by decide, by decide⟩

/-- C10 (amended): every manual pseudo-item has no timestamp, an empty
country tag and exactly the language string the call passes — which, in
`fetch_news`, is the effective language (empty when none is set) and the
manual items precede the feed items in merge order; a pseudo-item carrying
the effective language passes the language filter and survives iff no date
bound is active (so any active date bound removes all manual pseudo-items);
and in the sorted output of every successful call no item with a strictly
positive sort key appears after an item with key `0`, so manual pseudo-items
appear after every item dated strictly later than the minimal timestamp —
though they may precede an item dated exactly `datetime.min`. -/
theorem C10_manual_pseudo_items :
    (∀ (manualSnap : String → Except String ManualPage) (keyword_lower : String)
        (urls : List String) (language : String),
      ∀ x ∈ (fetch_manual_sources manualSnap keyword_lower urls language).1,
        x.date = none ∧ x.country = "" ∧ x.language = language) ∧
    (∀ (snap : Snapshot) (keyword : String) (language2 : Option String) (ctx : Ctx),
      (gathered snap keyword language2 ctx).1 =
        (if (manual_urls_of ctx).isEmpty then ([], [])
         else fetch_manual_sources snap.manual (normalize_text keyword)
           (manual_urls_of ctx) (pyOrS ctx.lang "")).1 ++
        ((feed_results snap.feed ctx.sources
            (g_source keyword ctx.normalized_country language2 ctx.lang)
            (normalize_text keyword)).map Prod.fst).flatten) ∧
    (∀ (lang : Option String) (ef et : Option PyDate) (x : NewsItem),
      x.date = none → x.language = pyOrS lang "" →
      keep_item lang ef et x = !(ef.isSome ∨ et.isSome)) ∧
    (∀ (cfg : Config) (snap : Snapshot) (today : PyDate) (keyword : String)
        (country language period : Option String) (date_from date_to : Option PyDate)
        (page page_size : Nat) (r : FetchResult),
      fetch_news cfg snap today keyword country language period date_from date_to
          page page_size = .ok r →
      List.Pairwise (fun a b => 0 < sortKey b → 0 < sortKey a) r.items) := by
  refine ⟨?_, fun _ _ _ _ => rfl, keep_item_pseudo, ?_⟩
  · intro manualSnap keyword_lower urls language x hx
    induction urls with
    | nil => simp [fetch_manual_sources] at hx
    | cons url rest ih =>
      rw [fetch_manual_sources] at hx
      cases hm : manualSnap url with
      | error exc =>
        rw [hm] at hx
        exact ih hx
      | ok pg =>
        rw [hm] at hx
        simp only at hx
        split at hx
        · exact ih hx
        · cases hh : hostOf url with
          | none => rw [hh] at hx; exact ih hx
          | some host =>
            rw [hh] at hx
            rcases List.mem_cons.1 hx with rfl | hx2
            · exact ⟨rfl, rfl, rfl⟩
            · exact ih hx2
  · intro cfg snap today keyword country language period date_from date_to
      page page_size r h
    refine List.Pairwise.imp ?_
      (fetch_news_items_pairwise cfg snap today keyword country language period
        date_from date_to page page_size r h)
    intro a b hab hb
    exact Nat.lt_of_lt_of_le hb hab

/-- Witness for C10 (amended) at the `es-ES` fixture: the returned manual
pseudo-item is undated, country-less and tagged with the effective
language. -/
theorem C10_manual_pseudo_items_witness :
    (fetch_manual_sources snapC10.manual "x" (manual_sources_for_country "es-ES")
          "es").1.all
        (fun x => x.date = none && x.country = "" && x.language = "es") = true := by
  have hall := C10_manual_pseudo_items.1 snapC10.manual "x"
    (manual_sources_for_country "es-ES") "es"
  rw [List.all_eq_true]
  intro x hx
  obtain ⟨h1, h2, h3⟩ := hall x hx
  simp [h1, h2, h3]

end Scrapping
